import Mathlib

/-!
Verification development for the GAOKAO answer-scoring and teacher-grading
engine.  The definitions below are shallow embeddings of the Python sources:

* `src/obj/analysis/auto_scoring.py`  (objective scoring pipeline)
* `src/sub/AIRun/teacher_grading.py`  (first-time teacher grading)
* `src/sub/AIRun/regrade_zero_scores.py` (regrading of zero scores)

Conventions: Python floats are modelled as rationals (`ℚ`); Python `set`s of
strings as `Finset String`; JSON documents as an inductive `Json` type with a
hand-written executable parser; the remote grading endpoint as an oracle
function from attempt number to an abstract response.  Letter extraction
models the ASCII behaviour of `str.upper()` followed by the regex `[A-Z]`.
-/

namespace GaokaoSpec

/-! ### Rounding: Python `round(x, 2)` (round-half-to-even) on rationals -/
/-- Round-half-to-even to the nearest integer, as Python's `round` does. -/
def halfEvenRound (x : ℚ) : ℤ :=
  let f := ⌊x⌋
  let r := x - (f : ℚ)
  if r < 1/2 then f
  else if 1/2 < r then f + 1
  else if f % 2 = 0 then f else f + 1

/-- The function `round(x, 2)` from Python, on rationals. -/
def round2 (x : ℚ) : ℚ := (halfEvenRound (x * 100) : ℚ) / 100

/-! ### AnswerNormalizer (`AutoScorer._normalize_answer`) -/
/-- An item of a Python list-valued answer: a string, or anything else
(skipped by the `isinstance(item, str)` check). -/
inductive AnsItem where
  | str (s : String)
  | other
deriving DecidableEq, Repr

/-- A raw answer value: free text, a list of items, or any other type
(which normalizes to the empty set). -/
inductive Answer where
  | str (s : String)
  | list (items : List AnsItem)
  | other
deriving DecidableEq, Repr

/-- The function `re.findall(r'[A-Z]', s.upper())`: uppercase every character and keep the
ASCII capital letters, in order of occurrence. -/
def extractLetters (s : String) : List Char :=
  (s.toList.map Char.toUpper).filter (fun c => 'A' ≤ c && c ≤ 'Z')

/-- The function `sorted(list(set(cs)))` on characters. -/
def sortedDistinct (cs : List Char) : List Char :=
  cs.toFinset.sort (· ≤ ·)

/-- The function `AutoScorer._normalize_answer` on a string input. -/
def normalizeStr (s : String) : List String :=
  (sortedDistinct (extractLetters s)).map Char.toString

/-- Letters contributed by one list item (non-strings are skipped). -/
def itemLetters : AnsItem → List Char
  | .str s => extractLetters s
  | .other => []

/-- The function `AutoScorer._normalize_answer`: extract distinct uppercase letters,
sorted, as one-character strings; non-string/non-list inputs yield `[]`. -/
def normalize_answer : Answer → List String
  | .str s => normalizeStr s
  | .list items =>
      (sortedDistinct (items.foldl (fun acc it => acc ++ itemLetters it) [])).map
        Char.toString
  | .other => []

/-! ### ScoringPolicy (`AutoScorer._calculate_score`) -/
/-- Union of normalizing every raw element of the standard answer
(`all_standard_options` in the source). -/
def allStandardOptions (standard_answer : List String) : Finset String :=
  standard_answer.foldl (fun acc opt => acc ∪ (normalizeStr opt).toFinset) ∅

/-- The function `AutoScorer._calculate_score`, translated branch by branch. -/
def calculate_score (standard_answer model_answer : List String)
    (question_score : ℚ) : ℚ :=
  let standard_set := standard_answer.toFinset
  let model_set := model_answer.toFinset
  let is_separate_format := standard_answer.all (fun opt => opt.length == 1)
  let ratio : ℚ :=
    if is_separate_format then
      let correct_matches := (standard_set ∩ model_set).card
      let total_standard := standard_set.card
      if total_standard = 0 then
        if model_set.card = 0 then 1 else 0
      else
        (correct_matches : ℚ) / (total_standard : ℚ)
    else
      let all_standard_options := allStandardOptions standard_answer
      if model_set = all_standard_options then 1
      else if model_set \ all_standard_options ≠ ∅ then 0
      else
        let correct_matches := (all_standard_options ∩ model_set).card
        let total_standard := all_standard_options.card
        if total_standard = 0 then
          if model_set.card = 0 then 1 else 0
        else
          (correct_matches : ℚ) / (total_standard : ℚ)
  round2 (question_score * ratio)

/-- The scoring operation as invoked by `AutoScorer._process_single_file`:
both answers are normalized before `_calculate_score` is called. -/
def pipeline_score (standard_answer model_answer : Answer)
    (question_score : ℚ) : ℚ :=
  calculate_score (normalize_answer standard_answer)
    (normalize_answer model_answer) question_score

/-! ### RecordBatchProcessor (`AutoScorer._process_single_file`)

A stored question record either is a JSON object — from which the scorer
reads `standard_answer`, `model_answer` and `score` (with defaults) and on
which it writes `model_score` — or is some malformed entry (e.g. a non-dict
element of the `questions` array) whose processing raises and is caught by
the per-record `except` clause. -/
inductive OQuestion where
  | record (standard_answer model_answer : Answer) (score : Option ℚ)
      (model_score : Option ℚ) : OQuestion
  | malformed : OQuestion
deriving DecidableEq, Repr

/-- One iteration of the scoring loop body: `some (updated record, score)` on
success, `none` when the record raises (the `except` path). -/
def process_question : OQuestion → Option (OQuestion × ℚ)
  | .malformed => none
  | .record sa ma sc _ =>
      let s := calculate_score (normalize_answer sa) (normalize_answer ma)
        (sc.getD 3)
      some (.record sa ma sc (some s), s)

/-- The scoring loop of `_process_single_file` starting at position `i`:
returns the updated records, the processed count, the accumulated total
score, and the positions of records whose processing raised (the log). -/
def process_questions : List OQuestion → Nat → List OQuestion × Nat × ℚ × List Nat
  | [], _ => ([], 0, 0, [])
  | q :: rest, i =>
      match process_question q with
      | some (q', s) =>
          let r := process_questions rest (i + 1)
          (q' :: r.1, r.2.1 + 1, r.2.2.1 + s, r.2.2.2)
      | none =>
          let r := process_questions rest (i + 1)
          (q :: r.1, r.2.1, r.2.2.1, i :: r.2.2.2)

/-- A result file of the objective pipeline: the `questions` array plus the
other top-level fields (kept verbatim). -/
structure OFile where
  questions : List OQuestion
  meta : String
deriving DecidableEq, Repr

/-- The function `AutoScorer._process_single_file`: score every record, and rewrite the
file iff at least one record was processed.  Returns
`(processed count, average score, stored file contents, wrote?)`. -/
def process_single_file (f : OFile) : Nat × ℚ × OFile × Bool :=
  let r := process_questions f.questions 0
  if r.2.1 > 0 then
    (r.2.1, r.2.2.1 / (r.2.1 : ℚ), ⟨r.1, f.meta⟩, true)
  else
    (0, 0, f, false)

/-- What one record looks like after the scoring loop has visited it. -/
def expected_out (q : OQuestion) : OQuestion :=
  match process_question q with
  | some (q', _) => q'
  | none => q

/-! ### Claim C7: the normalizer -/
/-- The letter held by a one-character string (used to state alphabetical
sortedness of normalized answers at the character level). -/
def headChar (s : String) : Char := s.toList.headD ' '

/-! ### JSON documents and `json.loads`

The teacher-grading clients parse the remote reply with `json.loads`.  We
model JSON documents as an inductive type and `json.loads` as an executable
recursive-descent parser (fuel-indexed to keep the recursion structural).
Unmodelled corner cases of CPython's parser: `NaN`/`Infinity` literals and
UTF-16 surrogate pairs in `\u` escapes. -/
inductive Json where
  | null
  | bool (b : Bool)
  | num (q : ℚ)
  | str (s : String)
  | arr (xs : List Json)
  | obj (kvs : List (String × Json))

/-- JSON insignificant whitespace. -/
def skipWs : List Char → List Char
  | c :: rest =>
      if c = ' ' ∨ c = '\t' ∨ c = '\n' ∨ c = '\r' then skipWs rest
      else c :: rest
  | [] => []

/-- Value of one hexadecimal digit. -/
def pHexVal (c : Char) : Option Nat :=
  if '0' ≤ c ∧ c ≤ '9' then some (c.toNat - '0'.toNat)
  else if 'a' ≤ c ∧ c ≤ 'f' then some (c.toNat - 'a'.toNat + 10)
  else if 'A' ≤ c ∧ c ≤ 'F' then some (c.toNat - 'A'.toNat + 10)
  else none

/-- Match a literal character sequence, returning the remaining input. -/
def matchLit : List Char → List Char → Option (List Char)
  | [], cs => some cs
  | _ :: _, [] => none
  | l :: ls, c :: cs => if c = l then matchLit ls cs else none

/-- Body of a JSON string (after the opening quote), with strict escape
handling: an unknown escape such as `\q` is a parse error, exactly the
failure mode the regrading client's backslash repair exists for. -/
def pStringBody : Nat → List Char → List Char → Option (String × List Char)
  | 0, _, _ => none
  | _ + 1, _, [] => none
  | fuel + 1, acc, c :: rest =>
      if c = '"' then some (String.mk acc.reverse, rest)
      else if c = '\\' then
        match rest with
        | [] => none
        | e :: rest2 =>
            if e = '"' then pStringBody fuel ('"' :: acc) rest2
            else if e = '\\' then pStringBody fuel ('\\' :: acc) rest2
            else if e = '/' then pStringBody fuel ('/' :: acc) rest2
            else if e = 'b' then pStringBody fuel ('\x08' :: acc) rest2
            else if e = 'f' then pStringBody fuel ('\x0c' :: acc) rest2
            else if e = 'n' then pStringBody fuel ('\n' :: acc) rest2
            else if e = 'r' then pStringBody fuel ('\r' :: acc) rest2
            else if e = 't' then pStringBody fuel ('\t' :: acc) rest2
            else if e = 'u' then
              match rest2 with
              | h1 :: h2 :: h3 :: h4 :: rest3 =>
                  match pHexVal h1, pHexVal h2, pHexVal h3, pHexVal h4 with
                  | some a, some b, some c3, some d =>
                      pStringBody fuel
                        (Char.ofNat (((a * 16 + b) * 16 + c3) * 16 + d) :: acc)
                        rest3
                  | _, _, _, _ => none
              | _ => none
            else none
      else if c.toNat < 32 then none
      else pStringBody fuel (c :: acc) rest

/-- Decimal digits to a natural number. -/
def digitsToNat (ds : List Char) : Nat :=
  ds.foldl (fun n c => n * 10 + (c.toNat - '0'.toNat)) 0

def pow10 (n : Nat) : ℚ := (10 : ℚ) ^ n

/-- Rational value of a parsed decimal literal
`[-] ids [. fds] [e exp]`. -/
def decimalValue (neg : Bool) (ids fds : List Char) (e : ℤ) : ℚ :=
  let mant : ℚ := (digitsToNat (ids ++ fds) : ℚ) / pow10 fds.length
  let base : ℚ := if 0 ≤ e then mant * pow10 e.toNat else mant / pow10 (-e).toNat
  if neg then -base else base

/-- JSON number literal. -/
def pNumber (cs : List Char) : Option (ℚ × List Char) :=
  let sr : Bool × List Char :=
    match cs with
    | '-' :: r => (true, r)
    | _ => (false, cs)
  match sr.2.span Char.isDigit with
  | ([], _) => none
  | (ids, cs2) =>
      if ids.length > 1 ∧ ids.headD '0' = '0' then none
      else
        let fr : Option (List Char × List Char) :=
          match cs2 with
          | '.' :: r =>
              match r.span Char.isDigit with
              | ([], _) => none
              | (fds, r2) => some (fds, r2)
          | _ => some ([], cs2)
        match fr with
        | none => none
        | some (fds, cs3) =>
            match cs3 with
            | e :: r =>
                if e = 'e' ∨ e = 'E' then
                  let er : ℤ × List Char :=
                    match r with
                    | '+' :: rr => (1, rr)
                    | '-' :: rr => (-1, rr)
                    | _ => (1, r)
                  match er.2.span Char.isDigit with
                  | ([], _) => none
                  | (eds, r2) =>
                      some (decimalValue sr.1 ids fds
                        (er.1 * (digitsToNat eds : ℤ)), r2)
                else some (decimalValue sr.1 ids fds 0, cs3)
            | [] => some (decimalValue sr.1 ids fds 0, cs3)

mutual

def pValue : Nat → List Char → Option (Json × List Char)
  | 0, _ => none
  | fuel + 1, cs0 =>
      match skipWs cs0 with
      | [] => none
      | '{' :: rest =>
          (match skipWs rest with
           | '}' :: r => some (.obj [], r)
           | r1 =>
               match pMembers fuel r1 with
               | some (kvs, r) => some (.obj kvs, r)
               | none => none)
      | '[' :: rest =>
          (match skipWs rest with
           | ']' :: r => some (.arr [], r)
           | r1 =>
               match pItems fuel r1 with
               | some (xs, r) => some (.arr xs, r)
               | none => none)
      | '"' :: rest =>
          (match pStringBody (rest.length + 1) [] rest with
           | some (s, r) => some (.str s, r)
           | none => none)
      | c :: cs =>
          match matchLit "null".toList (c :: cs) with
          | some r => some (.null, r)
          | none =>
              match matchLit "true".toList (c :: cs) with
              | some r => some (.bool true, r)
              | none =>
                  match matchLit "false".toList (c :: cs) with
                  | some r => some (.bool false, r)
                  | none =>
                      if c = '-' ∨ c.isDigit then
                        match pNumber (c :: cs) with
                        | some (q, r) => some (.num q, r)
                        | none => none
                      else none

def pMembers : Nat → List Char → Option (List (String × Json) × List Char)
  | 0, _ => none
  | fuel + 1, cs =>
      match skipWs cs with
      | '"' :: rest =>
          (match pStringBody (rest.length + 1) [] rest with
           | none => none
           | some (k, r1) =>
               match skipWs r1 with
               | ':' :: r2 =>
                   (match pValue fuel r2 with
                    | none => none
                    | some (v, r3) =>
                        match skipWs r3 with
                        | ',' :: r4 =>
                            (match pMembers fuel r4 with
                             | some (kvs, r5) => some ((k, v) :: kvs, r5)
                             | none => none)
                        | '}' :: r4 => some ([(k, v)], r4)
                        | _ => none)
               | _ => none)
      | _ => none

def pItems : Nat → List Char → Option (List Json × List Char)
  | 0, _ => none
  | fuel + 1, cs =>
      match pValue fuel cs with
      | none => none
      | some (v, r1) =>
          match skipWs r1 with
          | ',' :: r2 =>
              (match pItems fuel r2 with
               | some (xs, r3) => some (v :: xs, r3)
               | none => none)
          | ']' :: r2 => some ([v], r2)
          | _ => none

end

/-- The function `json.loads`: parse one JSON document, demanding the whole input be
consumed (modulo trailing whitespace). -/
def Json.parse (s : String) : Option Json :=
  let cs := s.toList
  match pValue (2 * cs.length + 2) cs with
  | none => none
  | some (v, rest) => if (skipWs rest).isEmpty then some v else none

/-- Dictionary lookup: CPython's `json.loads` keeps the last occurrence of a
duplicated key. -/
def jsonLookup (kvs : List (String × Json)) (k : String) : Option Json :=
  (kvs.reverse.find? (fun p => p.1 == k)).map Prod.snd

/-- Python `float(s)` on a string (whitespace-stripped sign plus decimal
forms); `inf`/`nan` spellings and digit underscores are not modelled. -/
def pyFloat (s : String) : Option ℚ :=
  let cs := s.trim.toList
  let sr : Bool × List Char :=
    match cs with
    | '-' :: r => (true, r)
    | '+' :: r => (false, r)
    | _ => (false, cs)
  match sr.2.span Char.isDigit with
  | (ids, rest) =>
      match rest with
      | '.' :: r =>
          (match r.span Char.isDigit with
           | (fds, r2) =>
               if ids.isEmpty ∧ fds.isEmpty then none
               else pyFloatExp sr.1 ids fds r2)
      | _ => if ids.isEmpty then none else pyFloatExp sr.1 ids [] rest
where
  pyFloatExp (neg : Bool) (ids fds : List Char) (rest : List Char) :
      Option ℚ :=
    match rest with
    | [] => some (decimalValue neg ids fds 0)
    | e :: r =>
        if e = 'e' ∨ e = 'E' then
          let er : ℤ × List Char :=
            match r with
            | '+' :: rr => (1, rr)
            | '-' :: rr => (-1, rr)
            | _ => (1, r)
          match er.2.span Char.isDigit with
          | ([], _) => none
          | (eds, r2) =>
              if r2.isEmpty then
                some (decimalValue neg ids fds (er.1 * (digitsToNat eds : ℤ)))
              else none
        else none

/-- Python `float(x)` on a decoded JSON value: numbers are themselves, bools
are 0/1, strings go through `float(str)`, everything else raises (`none`). -/
def jsonFloat : Json → Option ℚ
  | .num q => some q
  | .bool b => some (if b then 1 else 0)
  | .str s => pyFloat s
  | _ => none

/-- The function `float(...)` wrapped in `try/except (ValueError, TypeError)` with a
default of `0.0`, as both grading clients coerce `teacher_score`. -/
def jsonToScore (j : Json) : ℚ := (jsonFloat j).getD 0

/-! ### ExternalGraderClient reply parsing

`call_teacher_api` in both pipelines first extracts a fenced code block,
then attempts strict JSON parsing.  Only the regrading client
(`regrade_zero_scores.py`) has the backslash repair pass and the raw-text
pattern extraction; the first-time client (`teacher_grading.py`) returns the
raw payload with score `0.0` as soon as strict parsing fails. -/
/-- Fenced code block extraction:
`content.split('```json')[1].split('```')[0].strip()` when the reply holds a
tagged block, the analogous split on a bare fence otherwise. -/
def extract_block (content : String) : String :=
  if (content.splitOn "```json").length > 1 then
    match content.splitOn "```json" with
    | _ :: x :: _ => ((x.splitOn "```").headD x).trim
    | _ => content
  else if (content.splitOn "```").length > 1 then
    match content.splitOn "```" with
    | _ :: x :: _ => ((x.splitOn "```").headD x).trim
    | _ => content
  else content

/-- Characters after which a backslash is left alone by the repair regex
`\\(?!["\\/bfnrtu])`. -/
def escapeFollowers : List Char := ['"', '\\', '/', 'b', 'f', 'n', 'r', 't', 'u']

/-- The repair substitution: double every backslash not followed by a valid
JSON escape character (scanning left to right, one character at a time, as
`re.sub` does). -/
def fixBackslashesAux : List Char → List Char
  | [] => []
  | '\\' :: rest =>
      match rest with
      | c :: _ =>
          if c ∈ escapeFollowers then '\\' :: fixBackslashesAux rest
          else '\\' :: '\\' :: fixBackslashesAux rest
      | [] => ['\\', '\\']
  | c :: rest => c :: fixBackslashesAux rest

def fix_backslashes (s : String) : String := String.mk (fixBackslashesAux s.toList)

/-- ASCII subset of the regex class `\s`. -/
def isPyWs (c : Char) : Bool :=
  c = ' ' ∨ c = '\t' ∨ c = '\n' ∨ c = '\r' ∨ c = '\x0b' ∨ c = '\x0c'

/-- Characters matched by the capture class `[0-9.]`. -/
def isScoreChar (c : Char) : Bool := c.isDigit || c = '.'

/-- Tail of the label patterns: `\s*[：:]\s*([0-9.]+)`, returning the
capture. -/
def matchColonNumber (cs : List Char) : Option (List Char) :=
  match cs.dropWhile isPyWs with
  | c :: rest =>
      if c = '：' ∨ c = ':' then
        let cap := (rest.dropWhile isPyWs).takeWhile isScoreChar
        if cap.isEmpty then none else some cap
      else none
  | [] => none

/-- Pattern `"?teacher_score"?\s*[：:]\s*([0-9.]+)` anchored at the current
position (the optional quotes are deterministic because `"` can never start
the rest of the pattern). -/
def matchScoreKeyAt (cs : List Char) : Option (List Char) :=
  let cs1 := match cs with
    | '"' :: r => r
    | _ => cs
  match matchLit "teacher_score".toList cs1 with
  | none => none
  | some cs2 =>
      let cs3 := match cs2 with
        | '"' :: r => r
        | _ => cs2
      matchColonNumber cs3

/-- Patterns `最终得分|得分|评分` followed by `\s*[：:]\s*([0-9.]+)`,
anchored at the current position. -/
def matchLabelAt (label : String) (cs : List Char) : Option (List Char) :=
  match matchLit label.toList cs with
  | none => none
  | some rest => matchColonNumber rest

/-- Pattern `(\d+\.?\d*)\s*分` anchored at the current position.  With the
greedy quantifiers, the only viable alternatives at a given position are the
full digits-dot-digits capture or the digits-only capture. -/
def matchCnScoreAt (cs : List Char) : Option (List Char) :=
  let ds := cs.takeWhile Char.isDigit
  if ds.isEmpty then none
  else
    let rest1 := cs.drop ds.length
    let tryTail : List Char → List Char → Option (List Char) := fun cap rest =>
      match rest.dropWhile isPyWs with
      | c :: _ => if c = '分' then some cap else none
      | [] => none
    match rest1 with
    | '.' :: rest2 =>
        let fs := rest2.takeWhile Char.isDigit
        (match tryTail (ds ++ '.' :: fs) (rest2.drop fs.length) with
         | some cap => some cap
         | none => tryTail ds rest1)
    | _ => tryTail ds rest1

/-- The function `re.search`: first position (left to right) where the anchored matcher
succeeds. -/
def searchPat (m : List Char → Option (List Char)) : List Char → Option (List Char)
  | [] => none
  | c :: rest =>
      match m (c :: rest) with
      | some cap => some cap
      | none => searchPat m rest

/-- The `score_patterns` list of `_extract_from_raw_text`, in order. -/
def score_patterns : List (List Char → Option (List Char)) :=
  [matchScoreKeyAt, matchLabelAt "最终得分", matchLabelAt "得分",
    matchLabelAt "评分", matchCnScoreAt]

/-- The pattern loop: first pattern whose match converts with `float` wins;
a match whose capture `float` rejects falls through to the next pattern
(`except: pass`); no match at all leaves the default `0.0`. -/
def extract_score_loop : List (List Char → Option (List Char)) → List Char → ℚ
  | [], _ => 0
  | p :: ps, cs =>
      match searchPat p cs with
      | some cap =>
          (match pyFloat (String.mk cap) with
           | some q => q
           | none => extract_score_loop ps cs)
      | none => extract_score_loop ps cs

/-- The function `re.sub(r'```json|```', '', ·)` (leftmost alternative first), fuelled by
the input length since every step consumes at least one character. -/
def stripMarkersAux : Nat → List Char → List Char
  | 0, _ => []
  | _ + 1, [] => []
  | fuel + 1, c :: rest =>
      match matchLit "```json".toList (c :: rest) with
      | some r => stripMarkersAux fuel r
      | none =>
          match matchLit "```".toList (c :: rest) with
          | some r => stripMarkersAux fuel r
          | none => c :: stripMarkersAux fuel rest

/-- Marker stripping applied to the rationale text:
`re.sub(r'```json|```', '', content.strip()).strip()`. -/
def strip_markers (content : String) : String :=
  (String.mk (stripMarkersAux content.trim.toList.length content.trim.toList)).trim

/-- A grading verdict: the rationale (any decoded JSON value, a plain string
on the fallback paths) and the numeric score. -/
structure Verdict where
  analysis : Json
  score : ℚ

/-- The function `ReGradingSystem._extract_from_raw_text`. -/
def extract_from_raw_text (content : String) : Verdict :=
  ⟨Json.str (strip_markers content), extract_score_loop score_patterns content.toList⟩

/-- Outcome of handling one HTTP-200 reply: a verdict returned to the
caller; a silent fall-through to the next attempt (the missing-fields
`else` branch of `teacher_grading.py`, which does not sleep); or an
exception escaping the `json.JSONDecodeError` handlers (a `TypeError` from
the membership test or item access on a non-dict), which the attempt loop's
outer `except Exception` turns into a retry that sleeps only while attempts
remain — exactly like a network failure. -/
inductive ParseOut where
  | verdict (v : Verdict)
  | retry
  | raised

/-- Whether a character sequence occurs inside another. -/
def substrContains (pat : List Char) : List Char → Bool
  | [] => (matchLit pat []).isSome
  | c :: rest => (matchLit pat (c :: rest)).isSome || substrContains pat rest

/-- Result of evaluating the Python membership test `'k' in x` on a decoded
JSON value: dictionaries test their keys, lists their elements, strings
substring containment; numbers, booleans and `None` are not iterable and
raise `TypeError`. -/
inductive MemTest where
  | found
  | absent
  | raises

def pyMemTest (j : Json) (k : String) : MemTest :=
  match j with
  | .obj kvs => if (jsonLookup kvs k).isSome then .found else .absent
  | .arr xs =>
      if xs.any (fun e => match e with | .str s => s == k | _ => false) then .found
      else .absent
  | .str s => if substrContains k.toList s.toList then .found else .absent
  | _ => .raises

/-- Outcome of the shared validation
`if 'teacher_analysis' in grading_result and 'teacher_score' in
grading_result:` followed by the item accesses of the true branch.  For a
dictionary this finds both values or reports a missing field.  For any other
decoded value the membership test either raises `TypeError` outright
(number, boolean, `None`), evaluates to `False` (no raise — the `else`
branch runs), or evaluates to `True` for a string/list containing both key
spellings, after which `grading_result['teacher_score']` and the assignment
in the `except (ValueError, TypeError)` handler raise `TypeError`, which no
enclosing handler of the reply-parsing block catches. -/
inductive FieldsOutcome where
  | fields (a sc : Json)
  | missing
  | raises

def check_fields : Json → FieldsOutcome
  | .obj kvs =>
      (match jsonLookup kvs "teacher_analysis", jsonLookup kvs "teacher_score" with
       | some a, some sc => .fields a sc
       | _, _ => .missing)
  | j =>
      match pyMemTest j "teacher_analysis" with
      | .raises => .raises
      | .absent => .missing
      | .found =>
          match pyMemTest j "teacher_score" with
          | .raises => .raises
          | .absent => .missing
          | .found => .raises

/-- Reply handling of `TeacherGradingSystem.call_teacher_api` for one
HTTP-200 reply: extract the fenced block; on strict parse success with both
fields return the verdict (score coerced with a zero default); on a missing
field fall through to the next attempt without sleeping; on a parse error
return the raw payload as the rationale with score `0.0` — no repair, no
pattern extraction; a `TypeError` from validating a non-dict escapes to the
attempt loop's outer handler. -/
def teacher_parse (content0 : String) : ParseOut :=
  let content := extract_block content0
  match Json.parse content with
  | none => .verdict ⟨Json.str content, 0⟩
  | some j =>
      match check_fields j with
      | .fields a sc => .verdict ⟨a, jsonToScore sc⟩
      | .missing => .retry
      | .raises => .raised

/-- Field validation of the regrading client after a successful strict
parse: a decoded object carrying both fields becomes the verdict, a payload
failing the membership test degrades to raw-text extraction, and a
`TypeError` from testing a non-dict escapes to the attempt loop's outer
handler (consuming the attempt — not pattern extraction). -/
def regrade_validate (j : Json) (content : String) : ParseOut :=
  match check_fields j with
  | .fields a sc => .verdict ⟨a, jsonToScore sc⟩
  | .missing => .verdict (extract_from_raw_text content)
  | .raises => .raised

/-- Reply handling of `ReGradingSystem.call_teacher_api` for one HTTP-200
reply: strict parse, then the backslash-repair retry, then raw-text pattern
extraction when both parses fail; a successful parse goes through
`regrade_validate`. -/
def regrade_parse (content0 : String) : ParseOut :=
  let content := extract_block content0
  match Json.parse content with
  | some j => regrade_validate j content
  | none =>
      match Json.parse (fix_backslashes content) with
      | some j => regrade_validate j content
      | none => .verdict (extract_from_raw_text content)

/-! ### The remote call with retries, and the grading batch loops

The remote endpoint is abstracted as an oracle mapping the attempt number to
what that attempt observes: a network-level exception, a non-200 status, or
a 200 reply with some content. -/
inductive ApiResult where
  | netFail
  | httpFail (status : Nat)
  | ok (content : String)
deriving DecidableEq, Repr

/-- Result of one `call_teacher_api` invocation: the optional verdict, the
number of HTTP attempts performed, and the seconds slept by each backoff
`time.sleep(2 ** attempt)`, in order. -/
structure CallOutcome where
  verdict : Option Verdict
  attempts : Nat
  waits : List Nat

/-- The shared retry loop of both `call_teacher_api` implementations
(`for attempt in range(self.max_retries)`), parameterized by the reply
parser: a non-200 status sleeps `2 ** attempt` unconditionally; an exception
sleeps only when another attempt remains; a missing-fields reply falls
through without sleeping. -/
def api_call_loop (parse : String → ParseOut) (oracle : Nat → ApiResult)
    (max_retries : Nat) : Nat → Nat → CallOutcome
  | 0, _ => ⟨none, 0, []⟩
  | remaining + 1, attempt =>
      match oracle attempt with
      | .ok content =>
          (match parse content with
           | .verdict v => ⟨some v, 1, []⟩
           | .retry =>
               let r := api_call_loop parse oracle max_retries remaining (attempt + 1)
               ⟨r.verdict, r.attempts + 1, r.waits⟩
           | .raised =>
               let r := api_call_loop parse oracle max_retries remaining (attempt + 1)
               ⟨r.verdict, r.attempts + 1,
                 if attempt < max_retries - 1 then 2 ^ attempt :: r.waits
                 else r.waits⟩)
      | .httpFail _ =>
          let r := api_call_loop parse oracle max_retries remaining (attempt + 1)
          ⟨r.verdict, r.attempts + 1, 2 ^ attempt :: r.waits⟩
      | .netFail =>
          let r := api_call_loop parse oracle max_retries remaining (attempt + 1)
          ⟨r.verdict, r.attempts + 1,
            if attempt < max_retries - 1 then 2 ^ attempt :: r.waits else r.waits⟩

/-- The function `TeacherGradingSystem.call_teacher_api`. -/
def call_teacher_api (oracle : Nat → ApiResult) (max_retries : Nat) : CallOutcome :=
  api_call_loop teacher_parse oracle max_retries max_retries 0

/-- The function `ReGradingSystem.call_teacher_api`. -/
def call_regrade_api (oracle : Nat → ApiResult) (max_retries : Nat) : CallOutcome :=
  api_call_loop regrade_parse oracle max_retries max_retries 0

/-- One stored record of the subjective pipelines (an element of the
`example` array).  `teacher_score`/`teacher_analysis` are absent (`none`)
when the JSON object lacks the key; a key that is present holds a decoded
JSON value. -/
structure Example where
  question : String
  answer : String
  analysis : String
  score : ℚ
  model_output : String
  teacher_score : Option Json
  teacher_analysis : Option Json
  grading_timestamp : Option String

/-- The rationale recorded when every retry of a first-time grading call has
failed. -/
def failure_analysis : Json := Json.str "评分系统调用失败，无法给出评分"

/-- The function `TeacherGradingSystem.grade_single_question`: skip a record already
carrying both fields; otherwise call the grader, writing its verdict — or
the failure rationale with score `0.0` — plus a timestamp.  Also returns the
number of HTTP attempts spent. -/
def grade_single_question (oracle : Nat → ApiResult) (max_retries : Nat)
    (now : String) (ex : Example) : Example × Nat :=
  if ex.teacher_score.isSome ∧ ex.teacher_analysis.isSome then (ex, 0)
  else
    let out := call_teacher_api oracle max_retries
    match out.verdict with
    | some v =>
        ({ ex with teacher_analysis := some v.analysis,
                   teacher_score := some (Json.num v.score),
                   grading_timestamp := some now }, out.attempts)
    | none =>
        ({ ex with teacher_analysis := some failure_analysis,
                   teacher_score := some (Json.num 0),
                   grading_timestamp := some now }, out.attempts)

/-- The function `ReGradingSystem.regrade_question`: overwrite the stored verdict and
timestamp on success; keep the record untouched when every retry failed. -/
def regrade_question (oracle : Nat → ApiResult) (max_retries : Nat)
    (now : String) (ex : Example) : Example × Nat :=
  let out := call_regrade_api oracle max_retries
  match out.verdict with
  | some v =>
      ({ ex with teacher_analysis := some v.analysis,
                 teacher_score := some (Json.num v.score),
                 grading_timestamp := some now }, out.attempts)
  | none => (ex, out.attempts)

/-- The per-record loop of `TeacherGradingSystem.process_json_file`
(`if 'teacher_score' not in example`): records already holding the key are
passed through untouched, the others are graded (each record gets its own
attempt oracle via its position).  Returns the updated array and the total
HTTP attempts. -/
def grade_examples (oracleFor : Nat → Nat → ApiResult) (max_retries : Nat)
    (now : String) : List Example → Nat → List Example × Nat
  | [], _ => ([], 0)
  | ex :: rest, i =>
      if ex.teacher_score.isSome then
        let r := grade_examples oracleFor max_retries now rest (i + 1)
        (ex :: r.1, r.2)
      else
        let g := grade_single_question (oracleFor i) max_retries now ex
        let r := grade_examples oracleFor max_retries now rest (i + 1)
        (g.1 :: r.1, g.2 + r.2)

/-- A result file of the subjective pipelines: the `example` array plus the
other top-level fields (kept verbatim on rewrite). -/
structure TFile where
  examples : List Example
  meta : String

/-- The function `TeacherGradingSystem.process_json_file`.  Returns
`(success, stored contents, HTTP attempts, result-file writes, backup-file
writes)`; the checkpoint writes (one per five graded records) plus the final
save make up the result-file writes. -/
def process_json_file (oracleFor : Nat → Nat → ApiResult) (max_retries : Nat)
    (now : String) (backup backup_exists : Bool) (f : TFile) :
    Bool × TFile × Nat × Nat × Nat :=
  if f.examples.isEmpty then (false, f, 0, 0, 0)
  else
    let need_grading :=
      (f.examples.filter (fun ex => !ex.teacher_score.isSome)).length
    if need_grading = 0 then (true, f, 0, 0, 0)
    else
      let backup_writes := if backup ∧ ¬backup_exists then 1 else 0
      let g := grade_examples oracleFor max_retries now f.examples 0
      (true, ⟨g.1, f.meta⟩, g.2, need_grading / 5 + 1, backup_writes)

/-! ### RegradingOrchestrator scan phase -/
/-- Per-record selection of `scan_and_collect_zero_scores`:
`ex.get('teacher_score', None) is not None and float(...) == 0.0` (a decoded
JSON `null` loads as Python `None` and is skipped like an absent key). -/
def is_zero_score (ex : Example) : Bool :=
  match ex.teacher_score with
  | none => false
  | some .null => false
  | some j => decide (jsonFloat j = some 0)

/-- Whether `float(teacher_score)` is safe for this record (a record whose
present, non-null score `float` rejects raises, aborting the file's scan). -/
def score_floatable (ex : Example) : Bool :=
  match ex.teacher_score with
  | none => true
  | some .null => true
  | some j => (jsonFloat j).isSome

/-- The index-collection loop of `scan_and_collect_zero_scores` over one
file's records; `none` models the per-file `except` (the file is dropped
from the scan). -/
def zero_indices : List Example → Nat → Option (List Nat)
  | [], _ => some []
  | ex :: rest, idx =>
      match ex.teacher_score with
      | none => zero_indices rest (idx + 1)
      | some .null => zero_indices rest (idx + 1)
      | some j =>
          match jsonFloat j with
          | none => none
          | some q =>
              if q = 0 then (zero_indices rest (idx + 1)).map (idx :: ·)
              else zero_indices rest (idx + 1)

/-- The function `ReGradingSystem.scan_and_collect_zero_scores` over a directory listing:
unreadable files and files whose scan raises are skipped; files with no
zero-score record are omitted from the mapping. -/
def scan_and_collect : List (String × Option TFile) → List (String × List Nat)
  | [] => []
  | (_, none) :: rest => scan_and_collect rest
  | (name, some f) :: rest =>
      match zero_indices f.examples 0 with
      | none => scan_and_collect rest
      | some idxs =>
          if idxs.isEmpty then scan_and_collect rest
          else (name, idxs) :: scan_and_collect rest

/-! ### Claim C5: retries, backoff and exhaustion -/
/-- Attempts that do not return a 200 reply. -/
def api_failed : ApiResult → Bool
  | .netFail => true
  | .httpFail _ => true
  | .ok _ => false

/-- Attempts that fail with a non-success HTTP status. -/
def is_http_fail : ApiResult → Bool
  | .httpFail _ => true
  | _ => false

/-! ### Theorems -/

example : calculate_score ["A", "C"] ["A"] 10 = 5 := by with_unfolding_all decide

example : calculate_score ["A", "C"] ["A", "C", "D"] 10 = 10 := by with_unfolding_all decide

example : calculate_score ["BC"] ["B", "C"] 10 = 10 := by with_unfolding_all decide

example : calculate_score ["BC"] ["B", "C", "D"] 10 = 0 := by with_unfolding_all decide

example : calculate_score ["BCD"] ["B"] 9 = 3 := by with_unfolding_all decide

example :
    pipeline_score (.list [.str "BC"])
      (.list [.str "B", .str "C", .str "D"]) 10 = 10 := by with_unfolding_all decide

example :
    pipeline_score (.list [.str "BCD"]) (.list [.str "B"]) 9 = 3 := by with_unfolding_all decide

example : normalize_answer (.str "c, a, B!") = ["A", "B", "C"] := by with_unfolding_all decide

/-! ### Structure of the objective scoring loop -/
lemma process_questions_fst (qs : List OQuestion) (i : Nat) :
    (process_questions qs i).1 = qs.map expected_out := by
  induction qs generalizing i with
  | nil => rfl
  | cons q rest ih =>
      simp only [process_questions]
      cases h : process_question q with
      | none => simp [expected_out, h, ih]
      | some p => simp [expected_out, h, ih]

lemma process_questions_count (qs : List OQuestion) (i : Nat) :
    (process_questions qs i).2.1 =
      (qs.filter (fun q => (process_question q).isSome)).length := by
  induction qs generalizing i with
  | nil => rfl
  | cons q rest ih =>
      simp only [process_questions]
      cases h : process_question q with
      | none => simp [h, List.filter, ih]
      | some p => simp [h, List.filter, ih]

lemma process_questions_total (qs : List OQuestion) (i : Nat) :
    (process_questions qs i).2.2.1 =
      (qs.filterMap (fun q => (process_question q).map Prod.snd)).sum := by
  induction qs generalizing i with
  | nil => rfl
  | cons q rest ih =>
      simp only [process_questions]
      cases h : process_question q with
      | none => simp [h, List.filterMap, ih]
      | some p => simp [h, List.filterMap, ih, add_comm]

lemma process_questions_log (qs : List OQuestion) (i : Nat) :
    (process_questions qs i).2.2.2 =
      ((qs.enumFrom i).filter (fun p => (process_question p.2).isNone)).map
        Prod.fst := by
  induction qs generalizing i with
  | nil => rfl
  | cons q rest ih =>
      simp only [process_questions, List.enumFrom]
      cases h : process_question q with
      | none => simp [h, List.filter, ih]
      | some p => simp [h, List.filter, ih]

lemma process_question_expected (q : OQuestion) :
    process_question (expected_out q) = process_question q := by
  cases q with
  | malformed => rfl
  | record sa ma sc ms => rfl

lemma process_questions_idem (qs : List OQuestion) (i : Nat) :
    process_questions (qs.map expected_out) i =
      (qs.map expected_out, (process_questions qs i).2) := by
  induction qs generalizing i with
  | nil => rfl
  | cons q rest ih =>
      simp only [List.map, process_questions, process_question_expected]
      cases h : process_question q with
      | none => simp only [h, ih]
      | some p =>
          simp only [h, ih]
          have hq : expected_out q = p.1 := by
            simp [expected_out, h]
          simp [hq]

/-- Claim C8: in the objective batch processor, a record whose processing
raises is skipped in place (the loop writes nothing to it), its position is
logged, every other record is still processed, and the raising record
contributes neither to the processed count nor to the accumulated total
behind the mean. -/
theorem claim_C8_record_isolation (qs : List OQuestion) :
    (process_questions qs 0).1 = qs.map expected_out
    ∧ (process_questions qs 0).2.1 =
        (qs.filter (fun q => (process_question q).isSome)).length
    ∧ (process_questions qs 0).2.2.1 =
        (qs.filterMap (fun q => (process_question q).map Prod.snd)).sum
    ∧ (process_questions qs 0).2.2.2 =
        ((qs.enumFrom 0).filter (fun p => (process_question p.2).isNone)).map
          Prod.fst
    ∧ expected_out .malformed = .malformed :=
  ⟨process_questions_fst qs 0, process_questions_count qs 0,
    process_questions_total qs 0, process_questions_log qs 0, rfl⟩

/-- Claim C9: the objective-scoring pass is idempotent — rerunning
`_process_single_file` on the file it just stored yields the same processed
count, the same mean, identical stored contents, and the same write
decision. -/
theorem claim_C9_idempotent (f : OFile) :
    process_single_file ((process_single_file f).2.2.1) =
      process_single_file f := by
  simp only [process_single_file]
  by_cases h : (process_questions f.questions 0).2.1 > 0
  · simp only [h, if_pos]
    simp only [process_questions_fst, process_questions_idem, h, if_pos]
  · simp only [h, if_neg, if_false]

/-! ### Claims about the scoring policy itself -/
/-- Claim C1 (code bug): the pipeline normalizes the standard answer before
`_calculate_score`, and normalization only ever produces one-letter strings,
so the combined-policy branch is unreachable from the pipeline.  On the
spec's own test vector `score(["BC"], ["B","C","D"], 10)` the pipeline
returns `10.0` (separate-policy recall), not the claimed `0.0`; calling
`_calculate_score` directly on the raw standard answer does return `0.0`,
which is the behaviour the function's docstring describes. -/
theorem claim_C1_combined_policy_bypassed :
    pipeline_score (.list [.str "BC"])
        (.list [.str "B", .str "C", .str "D"]) 10 = 10
    ∧ calculate_score ["BC"] ["B", "C", "D"] 10 = 0
    ∧ normalize_answer (.list [.str "BC"]) = ["B", "C"]
    ∧ pipeline_score (.list [.str "BCD"]) (.list [.str "B"]) 9 = 3 := by
  refine ⟨?_, ?_, ?_, ?_⟩ <;> with_unfolding_all decide

lemma separate_format_of_single (std : List String)
    (hsep : ∀ s ∈ std, s.length = 1) :
    (std.all fun opt => opt.length == 1) = true := by
  rw [List.all_eq_true]
  intro s hs
  simpa using hsep s hs

/-- Claim C6: when every element of the standard answer is a single letter,
the score is `round(maxScore * |standard ∩ candidate| / |standard|, 2)`, with
ratio `1` when both sets are empty and `0` when only the standard set is
empty; candidate letters outside the standard set leave the score unchanged,
and the spec's two examples evaluate as stated. -/
theorem claim_C6_separate_policy (std cand : List String) (q : ℚ)
    (hsep : ∀ s ∈ std, s.length = 1) :
    calculate_score std cand q =
      round2 (q *
        (if std.toFinset = ∅ then (if cand.toFinset = ∅ then (1 : ℚ) else 0)
         else ((std.toFinset ∩ cand.toFinset).card : ℚ) /
           (std.toFinset.card : ℚ)))
    ∧ (std.toFinset ≠ ∅ →
        ∀ extra : List String, (∀ e ∈ extra, e ∉ std.toFinset) →
          calculate_score std (cand ++ extra) q = calculate_score std cand q)
    ∧ calculate_score ["A", "C"] ["A"] 10 = 5
    ∧ calculate_score ["A", "C"] ["A", "C", "D"] 10 = 10 := by
  have hall := separate_format_of_single std hsep
  refine ⟨?_, ?_, ?_, ?_⟩
  · simp only [calculate_score, hall, if_true]
    congr 1
    by_cases h0 : std.toFinset.card = 0
    · have he : std.toFinset = ∅ := Finset.card_eq_zero.mp h0
      by_cases hc : cand.toFinset = ∅ <;>
        simp [h0, he, hc, Finset.card_eq_zero]
    · have he : ¬std.toFinset = ∅ := fun h => h0 (by simp [h])
      simp [h0, he]
  · intro hne extra hextra
    have hint : std.toFinset ∩ (cand ++ extra).toFinset =
        std.toFinset ∩ cand.toFinset := by
      have hdisj : std.toFinset ∩ extra.toFinset = ∅ := by
        ext x
        simp only [Finset.mem_inter, Finset.not_mem_empty, iff_false,
          not_and, List.mem_toFinset]
        exact fun hx hxe => hextra x hxe (List.mem_toFinset.mpr hx)
      rw [List.toFinset_append, Finset.inter_union_distrib_left, hdisj,
        Finset.union_empty]
    have hcard0 : ¬std.toFinset.card = 0 := by
      simpa [Finset.card_eq_zero] using hne
    simp only [calculate_score, hall, if_true, hint, hcard0, if_false]
  · with_unfolding_all decide
  · with_unfolding_all decide

/-- Witness for claim C6: the separate-format hypothesis holds at
`["A","C"]` and the theorem then yields the spec's first example value. -/
theorem claim_C6_separate_policy_witness :
    (∀ s ∈ (["A", "C"] : List String), s.length = 1)
    ∧ calculate_score ["A", "C"] ["A"] 10 = 5 :=
  ⟨by decide, (claim_C6_separate_policy ["A", "C"] ["A"] 10 (by decide)).2.2.1⟩

lemma toList_char_toString (c : Char) : (Char.toString c).toList = [c] := rfl

lemma char_toString_injective : Function.Injective Char.toString := by
  intro a b h
  have h2 := congrArg String.toList h
  rw [toList_char_toString, toList_char_toString] at h2
  exact List.head_eq_of_cons_eq h2

lemma headChar_toString (c : Char) : headChar (Char.toString c) = c := rfl

lemma mem_sortedDistinct {c : Char} {cs : List Char} :
    c ∈ sortedDistinct cs ↔ c ∈ cs := by
  simp [sortedDistinct, Finset.mem_sort]

lemma sortedDistinct_pairwise (cs : List Char) :
    (sortedDistinct cs).Pairwise (· < ·) :=
  Finset.sort_sorted_lt _

lemma mem_extractLetters {c : Char} {s : String} :
    c ∈ extractLetters s ↔
      ('A' ≤ c ∧ c ≤ 'Z') ∧ ∃ d ∈ s.toList, d.toUpper = c := by
  simp only [extractLetters, List.mem_filter, List.mem_map]
  constructor
  · rintro ⟨⟨d, hd, rfl⟩, hp⟩
    refine ⟨?_, ⟨d, hd, rfl⟩⟩
    simpa [Bool.and_eq_true, decide_eq_true_eq] using hp
  · rintro ⟨hp, ⟨d, hd, rfl⟩⟩
    exact ⟨⟨d, hd, rfl⟩, by simpa [Bool.and_eq_true, decide_eq_true_eq] using hp⟩

lemma extractLetters_bounds {c : Char} {s : String}
    (h : c ∈ extractLetters s) : 'A' ≤ c ∧ c ≤ 'Z' :=
  (mem_extractLetters.mp h).1

lemma mem_foldl_itemLetters (items : List AnsItem) (init : List Char)
    (c : Char) :
    c ∈ items.foldl (fun acc it => acc ++ itemLetters it) init ↔
      c ∈ init ∨ ∃ it ∈ items, c ∈ itemLetters it := by
  induction items generalizing init with
  | nil => simp
  | cons it rest ih =>
      simp only [List.foldl, ih, List.mem_append, List.mem_cons]
      constructor
      · rintro (⟨h | h⟩ | ⟨it', h1, h2⟩)
        · exact Or.inl h
        · exact Or.inr ⟨it, Or.inl rfl, h⟩
        · exact Or.inr ⟨it', Or.inr h1, h2⟩
      · rintro (h | ⟨it', h1 | h1, h2⟩)
        · exact Or.inl (Or.inl h)
        · exact Or.inl (Or.inr (h1 ▸ h2))
        · exact Or.inr ⟨it', h1, h2⟩

/-- Claim C7: `_normalize_answer` always returns an alphabetically strictly
increasing list of distinct single uppercase letters; for free text the
letters are exactly the case-insensitive Latin letters occurring in it, for a
list of items the union of the per-item extractions, and for any other input
the empty list. -/
theorem claim_C7_normalize_characterization (a : Answer) :
    ((normalize_answer a).map headChar).Pairwise (· < ·)
    ∧ (normalize_answer a).Nodup
    ∧ (∀ t ∈ normalize_answer a, ∃ c, t = Char.toString c ∧ 'A' ≤ c ∧ c ≤ 'Z')
    ∧ (∀ s, a = .str s → ∀ c : Char,
        (Char.toString c ∈ normalize_answer a ↔
          ('A' ≤ c ∧ c ≤ 'Z') ∧ ∃ d ∈ s.toList, d.toUpper = c))
    ∧ (∀ items, a = .list items → ∀ c : Char,
        (Char.toString c ∈ normalize_answer a ↔ ∃ it ∈ items, c ∈ itemLetters it))
    ∧ (a = .other → normalize_answer a = []) := by
  have key : ∀ cs : List Char,
      (((sortedDistinct cs).map Char.toString).map headChar).Pairwise (· < ·) ∧
        ((sortedDistinct cs).map Char.toString).Nodup := by
    intro cs
    constructor
    · rw [List.map_map]
      have : (headChar ∘ Char.toString) = id := by
        funext c; exact headChar_toString c
      rw [this, List.map_id]
      exact sortedDistinct_pairwise cs
    · have hnd : (sortedDistinct cs).Nodup :=
        (sortedDistinct_pairwise cs).imp ne_of_lt
      exact hnd.map char_toString_injective
  refine ⟨?_, ?_, ?_, ?_, ?_, ?_⟩
  · cases a with
    | str s => exact (key _).1
    | list items => exact (key _).1
    | other => simp [normalize_answer]
  · cases a with
    | str s => exact (key _).2
    | list items => exact (key _).2
    | other => simp [normalize_answer]
  · cases a with
    | str s =>
        intro t ht
        simp only [normalize_answer, normalizeStr, List.mem_map] at ht
        obtain ⟨c, hc, rfl⟩ := ht
        exact ⟨c, rfl, extractLetters_bounds (mem_sortedDistinct.mp hc)⟩
    | list items =>
        intro t ht
        simp only [normalize_answer, List.mem_map] at ht
        obtain ⟨c, hc, rfl⟩ := ht
        have := (mem_foldl_itemLetters items [] c).mp (mem_sortedDistinct.mp hc)
        rcases this with h | ⟨it, _, hit⟩
        · cases h
        · cases it with
          | str s => exact ⟨c, rfl, extractLetters_bounds hit⟩
          | other => cases hit
    | other => intro t ht; cases ht
  · rintro s rfl c
    simp only [normalize_answer, normalizeStr, List.mem_map]
    constructor
    · rintro ⟨c', hc', heq⟩
      have : c' = c := char_toString_injective heq
      subst this
      exact mem_extractLetters.mp (mem_sortedDistinct.mp hc')
    · intro h
      exact ⟨c, mem_sortedDistinct.mpr (mem_extractLetters.mpr h), rfl⟩
  · rintro items rfl c
    simp only [normalize_answer, List.mem_map]
    constructor
    · rintro ⟨c', hc', heq⟩
      rw [char_toString_injective heq] at hc'
      have := (mem_foldl_itemLetters items [] c).mp (mem_sortedDistinct.mp hc')
      rcases this with h | h
      · cases h
      · exact h
    · intro h
      exact ⟨c, mem_sortedDistinct.mpr ((mem_foldl_itemLetters items [] c).mpr
        (Or.inr h)), rfl⟩
  · rintro rfl; rfl

/-- Witness for claim C7: instantiating the characterization at the concrete
free-text answer used by the spec's examples. -/
theorem claim_C7_normalize_witness :
    Answer.str "c, a, B!" = Answer.str "c, a, B!"
    ∧ (Char.toString 'A' ∈ normalize_answer (.str "c, a, B!") ↔
        ('A' ≤ 'A' ∧ 'A' ≤ 'Z') ∧ ∃ d ∈ ("c, a, B!" : String).toList,
          d.toUpper = 'A') :=
  ⟨rfl, (claim_C7_normalize_characterization (.str "c, a, B!")).2.2.2.1
    "c, a, B!" rfl 'A'⟩

example : Json.parse "\x7b\"teacher_score\": 4, \"teacher_analysis\": \"ok\"\x7d"
    = some (.obj [("teacher_score", .num 4), ("teacher_analysis", .str "ok")]) := by
  with_unfolding_all rfl

example : Json.parse "\x7b\"a\": \"x\\q\"\x7d" = none := by with_unfolding_all rfl

example : Json.parse "[1, true, null]"
    = some (.arr [.num 1, .bool true, .null]) := by with_unfolding_all rfl

example : pyFloat "3.5" = some (7/2) := by with_unfolding_all rfl

example : pyFloat "1.2.3" = none := by with_unfolding_all rfl

example : extract_block "pre ```json\n\x7b\"a\": 1\x7d\n``` post" = "\x7b\"a\": 1\x7d" := by
  with_unfolding_all rfl

example : fix_backslashes "a\\q b\\n" = "a\\\\q b\\n" := by with_unfolding_all rfl

example : extract_score_loop score_patterns "最终得分: 5 x".toList = 5 := by
  with_unfolding_all rfl

example : extract_score_loop score_patterns "共 7 分".toList = 7 := by
  with_unfolding_all rfl

example : extract_score_loop score_patterns "no score here".toList = 0 := by
  with_unfolding_all rfl

/-! ### Claim C2: completed files are untouched -/
/-- Claim C2: over a file in which every record already carries both a
teacher score and a teacher rationale, a teacher-grading run makes zero
HTTP attempts and performs no write at all — neither a result-file write
(checkpoint or final) nor a backup write — and the stored contents are
returned unchanged. -/
theorem claim_C2_completed_file_untouched (oracleFor : Nat → Nat → ApiResult)
    (max_retries : Nat) (now : String) (backup backup_exists : Bool) (f : TFile)
    (h : ∀ ex ∈ f.examples,
      ex.teacher_score.isSome ∧ ex.teacher_analysis.isSome) :
    (process_json_file oracleFor max_retries now backup backup_exists f).2.1 = f
    ∧ (process_json_file oracleFor max_retries now backup backup_exists f).2.2.1 = 0
    ∧ (process_json_file oracleFor max_retries now backup backup_exists f).2.2.2.1 = 0
    ∧ (process_json_file oracleFor max_retries now backup backup_exists f).2.2.2.2 = 0 := by
  simp only [process_json_file]
  by_cases hemp : f.examples.isEmpty
  · simp [hemp]
  · have hfil : f.examples.filter (fun ex => !ex.teacher_score.isSome) = [] := by
      rw [List.filter_eq_nil_iff]
      intro ex hex
      simp [(h ex hex).1]
    rw [if_neg (by simpa using hemp), hfil]
    simp

/-- Witness for claim C2: a one-record file already carrying both fields
goes through a grading run — against an oracle that would fail every call —
with no call, no write, and unchanged contents. -/
theorem claim_C2_completed_file_untouched_witness :
    (∀ ex ∈ (TFile.mk [⟨"q", "a", "an", 5, "out", some (Json.num 2),
        some (Json.str "good"), none⟩] "meta").examples,
      ex.teacher_score.isSome ∧ ex.teacher_analysis.isSome)
    ∧ (process_json_file (fun _ _ => ApiResult.netFail) 3 "t" true false
        (TFile.mk [⟨"q", "a", "an", 5, "out", some (Json.num 2),
          some (Json.str "good"), none⟩] "meta")).2.1 =
      TFile.mk [⟨"q", "a", "an", 5, "out", some (Json.num 2),
        some (Json.str "good"), none⟩] "meta" := by
  have h : ∀ ex ∈ (TFile.mk [⟨"q", "a", "an", 5, "out", some (Json.num 2),
      some (Json.str "good"), none⟩] "meta").examples,
      ex.teacher_score.isSome ∧ ex.teacher_analysis.isSome := by
    intro ex hex
    rw [List.mem_singleton] at hex
    subst hex
    exact ⟨rfl, rfl⟩
  exact ⟨h, (claim_C2_completed_file_untouched (fun _ _ => .netFail) 3 "t"
    true false _ h).1⟩

/-! ### Claim C10: the per-file loop keys on the score alone -/
/-- Claim C10: the per-file grading loop skips any record whose
`teacher_score` key is present, whether or not a rationale is present: the
record is passed through identically (so it never acquires a rationale) and
contributes no HTTP attempt. -/
theorem claim_C10_skip_on_score_alone (oracleFor : Nat → Nat → ApiResult)
    (max_retries : Nat) (now : String) :
    (∀ (ex : Example) (rest : List Example) (i : Nat), ex.teacher_score.isSome →
      grade_examples oracleFor max_retries now (ex :: rest) i =
        (ex :: (grade_examples oracleFor max_retries now rest (i + 1)).1,
          (grade_examples oracleFor max_retries now rest (i + 1)).2))
    ∧ (∀ (exs : List Example) (i k : Nat) (ex : Example),
        exs[k]? = some ex → ex.teacher_score.isSome →
        (grade_examples oracleFor max_retries now exs i).1[k]? = some ex) := by
  constructor
  · intro ex rest i hscore
    simp [grade_examples, hscore]
  · intro exs
    induction exs with
    | nil => intro i k ex hk; simp at hk
    | cons hd tl ih =>
        intro i k ex hk hscore
        cases k with
        | zero =>
            simp only [List.getElem?_cons_zero, Option.some.injEq] at hk
            subst hk
            simp [grade_examples, hscore]
        | succ k' =>
            simp only [List.getElem?_cons_succ] at hk
            simp only [grade_examples]
            by_cases hhd : hd.teacher_score.isSome
            · rw [if_pos hhd]
              simp only [List.getElem?_cons_succ]
              exact ih (i + 1) k' ex hk hscore
            · rw [if_neg hhd]
              simp only [List.getElem?_cons_succ]
              exact ih (i + 1) k' ex hk hscore

/-- Witness for claim C10: a record holding a score but no rationale is
passed through the loop unchanged. -/
theorem claim_C10_skip_on_score_alone_witness :
    (Example.mk "q" "a" "an" 5 "out" (some (Json.num 3)) none
        none).teacher_score.isSome
    ∧ (grade_examples (fun _ _ => ApiResult.netFail) 3 "t"
        [Example.mk "q" "a" "an" 5 "out" (some (Json.num 3)) none none] 0).1[0]? =
      some (Example.mk "q" "a" "an" 5 "out" (some (Json.num 3)) none none) :=
  ⟨rfl, (claim_C10_skip_on_score_alone (fun _ _ => .netFail) 3 "t").2
    [Example.mk "q" "a" "an" 5 "out" (some (Json.num 3)) none none] 0 0 _ rfl rfl⟩

lemma api_call_loop_all_fail (parse : String → ParseOut)
    (oracle : Nat → ApiResult) (mr : Nat) (remaining : Nat) :
    ∀ attempt,
      (∀ a, attempt ≤ a → a < attempt + remaining → api_failed (oracle a) = true) →
      api_call_loop parse oracle mr remaining attempt =
        ⟨none, remaining,
          ((List.range' attempt remaining).filter
            (fun a => is_http_fail (oracle a) || decide (a < mr - 1))).map
              (2 ^ ·)⟩ := by
  induction remaining with
  | zero => intro attempt _; rfl
  | succ n ih =>
      intro attempt h
      have hfa : api_failed (oracle attempt) = true :=
        h attempt le_rfl (by omega)
      have hrest :
          ∀ a, attempt + 1 ≤ a → a < attempt + 1 + n →
            api_failed (oracle a) = true :=
        fun a h1 h2 => h a (by omega) (by omega)
      simp only [api_call_loop]
      cases hoc : oracle attempt with
      | ok c => rw [hoc] at hfa; simp [api_failed] at hfa
      | httpFail s =>
          rw [ih (attempt + 1) hrest]
          simp [List.range', hoc, is_http_fail]
      | netFail =>
          rw [ih (attempt + 1) hrest]
          by_cases hlt : attempt < mr - 1 <;>
            simp [List.range', hoc, is_http_fail, hlt]

/-- Claim C5: when every attempt hits a network failure or a non-success
status, the call makes exactly `max_retries` attempts, sleeping `2^attempt`
seconds after each attempt that backs off (every non-200 status; network
failures on all but the last attempt), and returns no verdict; the
first-time pipeline then stores the failure rationale with a zero score and
a timestamp, the regrading pipeline leaves the record untouched, and the
batch loop still recurses into the remaining records. -/
theorem claim_C5_retry_exhaustion (oracle : Nat → ApiResult)
    (max_retries : Nat) (now : String) (ex : Example)
    (hfail : ∀ a, a < max_retries → api_failed (oracle a) = true) :
    (call_teacher_api oracle max_retries).verdict = none
    ∧ (call_teacher_api oracle max_retries).attempts = max_retries
    ∧ (call_teacher_api oracle max_retries).waits =
        ((List.range max_retries).filter
          (fun a => is_http_fail (oracle a) || decide (a < max_retries - 1))).map
            (2 ^ ·)
    ∧ (call_regrade_api oracle max_retries).verdict = none
    ∧ (¬(ex.teacher_score.isSome ∧ ex.teacher_analysis.isSome) →
        grade_single_question oracle max_retries now ex =
          ({ ex with teacher_analysis := some failure_analysis,
                     teacher_score := some (Json.num 0),
                     grading_timestamp := some now }, max_retries))
    ∧ regrade_question oracle max_retries now ex = (ex, max_retries)
    ∧ (∀ (rest : List Example) (i : Nat) (oracleFor : Nat → Nat → ApiResult),
        ex.teacher_score.isSome = false →
        grade_examples oracleFor max_retries now (ex :: rest) i =
          ((grade_single_question (oracleFor i) max_retries now ex).1 ::
              (grade_examples oracleFor max_retries now rest (i + 1)).1,
            (grade_single_question (oracleFor i) max_retries now ex).2 +
              (grade_examples oracleFor max_retries now rest (i + 1)).2)) := by
  have h0 : ∀ a, 0 ≤ a → a < 0 + max_retries → api_failed (oracle a) = true :=
    fun a _ h2 => hfail a (by omega)
  have hteacher := api_call_loop_all_fail teacher_parse oracle max_retries
    max_retries 0 h0
  have hregrade := api_call_loop_all_fail
    regrade_parse oracle max_retries max_retries 0 h0
  have hrange : List.range' 0 max_retries = List.range max_retries :=
    (List.range_eq_range' max_retries).symm
  refine ⟨?_, ?_, ?_, ?_, ?_, ?_, ?_⟩
  · simp [call_teacher_api, hteacher]
  · simp [call_teacher_api, hteacher]
  · simp [call_teacher_api, hteacher, hrange]
  · simp [call_regrade_api, hregrade]
  · intro hnot
    simp only [grade_single_question, if_neg hnot, call_teacher_api, hteacher]
  · simp only [regrade_question, call_regrade_api, hregrade]
  · intro rest i oracleFor hno
    simp [grade_examples, hno]

/-- Witness for claim C5: three straight network failures at the default
retry cap produce no verdict, two backoff sleeps of 1 and 2 seconds, and a
regrading record left untouched. -/
theorem claim_C5_retry_exhaustion_witness :
    (∀ a, a < 3 → api_failed ((fun _ => ApiResult.netFail) a) = true)
    ∧ (call_teacher_api (fun _ => ApiResult.netFail) 3).waits = [1, 2]
    ∧ regrade_question (fun _ => ApiResult.netFail) 3 "t"
        (Example.mk "q" "a" "an" 5 "out" none none none) =
      (Example.mk "q" "a" "an" 5 "out" none none none, 3) := by
  have h := claim_C5_retry_exhaustion (fun _ => ApiResult.netFail) 3 "t"
    (Example.mk "q" "a" "an" 5 "out" none none none) (fun a _ => rfl)
  refine ⟨fun a _ => rfl, ?_, h.2.2.2.2.2.1⟩
  rw [h.2.2.1]
  with_unfolding_all rfl

/-! ### Claim C4: the regrading scan selects exactly the zero scores -/
lemma zero_indices_eq (exs : List Example) :
    ∀ idx, (∀ ex ∈ exs, score_floatable ex = true) →
      zero_indices exs idx =
        some (((exs.enumFrom idx).filter (fun p => is_zero_score p.2)).map
          Prod.fst) := by
  induction exs with
  | nil => intro idx _; rfl
  | cons ex rest ih =>
      intro idx h
      have hex : score_floatable ex = true := h ex (by simp)
      have hrest : ∀ e ∈ rest, score_floatable e = true :=
        fun e he => h e (by simp [he])
      cases hts : ex.teacher_score with
      | none =>
          have hiz : is_zero_score ex = false := by simp [is_zero_score, hts]
          simp [zero_indices, hts, List.enumFrom, List.filter_cons, hiz,
            ih (idx + 1) hrest]
      | some j =>
          cases j with
          | null =>
              have hiz : is_zero_score ex = false := by simp [is_zero_score, hts]
              simp [zero_indices, hts, List.enumFrom, List.filter_cons, hiz,
                ih (idx + 1) hrest]
          | num q =>
              by_cases hq : q = 0
              · have hiz : is_zero_score ex = true := by
                  simp [is_zero_score, hts, jsonFloat, hq]
                simp [zero_indices, hts, jsonFloat, hq, List.enumFrom,
                  List.filter_cons, hiz, ih (idx + 1) hrest]
              · have hiz : is_zero_score ex = false := by
                  simp [is_zero_score, hts, jsonFloat, hq]
                simp [zero_indices, hts, jsonFloat, hq, List.enumFrom,
                  List.filter_cons, hiz, ih (idx + 1) hrest]
          | bool b =>
              cases b with
              | true =>
                  have hiz : is_zero_score ex = false := by
                    simp [is_zero_score, hts, jsonFloat]
                  simp [zero_indices, hts, jsonFloat, List.enumFrom,
                    List.filter_cons, hiz, ih (idx + 1) hrest]
              | false =>
                  have hiz : is_zero_score ex = true := by
                    simp [is_zero_score, hts, jsonFloat]
                  simp [zero_indices, hts, jsonFloat, List.enumFrom,
                    List.filter_cons, hiz, ih (idx + 1) hrest]
          | str s =>
              simp only [score_floatable, hts, jsonFloat] at hex
              obtain ⟨q, hq⟩ := Option.isSome_iff_exists.mp hex
              by_cases hz : q = 0
              · have hiz : is_zero_score ex = true := by
                  simp [is_zero_score, hts, jsonFloat, hq, hz]
                simp [zero_indices, hts, jsonFloat, hq, hz, List.enumFrom,
                  List.filter_cons, hiz, ih (idx + 1) hrest]
              · have hiz : is_zero_score ex = false := by
                  simp [is_zero_score, hts, jsonFloat, hq, hz]
                simp [zero_indices, hts, jsonFloat, hq, hz, List.enumFrom,
                  List.filter_cons, hiz, ih (idx + 1) hrest]
          | arr xs => simp [score_floatable, hts, jsonFloat] at hex
          | obj kvs => simp [score_floatable, hts, jsonFloat] at hex

/-- Claim C4: over any readable file whose present teacher scores are
`float`-coercible, the scan selects exactly the positions of records whose
`teacher_score` is present (and not null) and numerically equal to zero;
records with another value, or with no score at all, are never selected,
and a file whose selection is empty is omitted from the mapping while a
non-empty selection is recorded under the file's name. -/
theorem claim_C4_scan_selection (f : TFile)
    (h : ∀ ex ∈ f.examples, score_floatable ex = true) :
    zero_indices f.examples 0 =
      some (((f.examples.enumFrom 0).filter (fun p => is_zero_score p.2)).map
        Prod.fst)
    ∧ (∀ (name : String) (rest : List (String × Option TFile)),
        ((f.examples.enumFrom 0).filter (fun p => is_zero_score p.2)) = [] →
        scan_and_collect ((name, some f) :: rest) = scan_and_collect rest)
    ∧ (∀ (name : String) (rest : List (String × Option TFile)),
        ((f.examples.enumFrom 0).filter (fun p => is_zero_score p.2)) ≠ [] →
        scan_and_collect ((name, some f) :: rest) =
          (name,
            ((f.examples.enumFrom 0).filter (fun p => is_zero_score p.2)).map
              Prod.fst) :: scan_and_collect rest) := by
  have hz := zero_indices_eq f.examples 0 h
  refine ⟨hz, ?_, ?_⟩
  · intro name rest hemp
    simp [scan_and_collect, hz, hemp]
  · intro name rest hne
    cases hfe : (f.examples.enumFrom 0).filter (fun p => is_zero_score p.2) with
    | nil => exact absurd hfe hne
    | cons a l =>
        rw [hfe] at hz
        simp [scan_and_collect, hz, hfe]

/-- Witness for claim C4: a four-record file (zero score, non-zero score,
no score, null score) selects exactly the first position. -/
theorem claim_C4_scan_selection_witness :
    (∀ ex ∈ (TFile.mk
        [Example.mk "a" "a" "a" 5 "o" (some (Json.num 0)) none none,
         Example.mk "b" "b" "b" 5 "o" (some (Json.num (5/2))) none none,
         Example.mk "c" "c" "c" 5 "o" none none none,
         Example.mk "d" "d" "d" 5 "o" (some Json.null) none none] "m").examples,
      score_floatable ex = true)
    ∧ zero_indices (TFile.mk
        [Example.mk "a" "a" "a" 5 "o" (some (Json.num 0)) none none,
         Example.mk "b" "b" "b" 5 "o" (some (Json.num (5/2))) none none,
         Example.mk "c" "c" "c" 5 "o" none none none,
         Example.mk "d" "d" "d" 5 "o" (some Json.null) none none] "m").examples 0 =
      some [0] := by
  have h : ∀ ex ∈ (TFile.mk
      [Example.mk "a" "a" "a" 5 "o" (some (Json.num 0)) none none,
       Example.mk "b" "b" "b" 5 "o" (some (Json.num (5/2))) none none,
       Example.mk "c" "c" "c" 5 "o" none none none,
       Example.mk "d" "d" "d" 5 "o" (some Json.null) none none] "m").examples,
      score_floatable ex = true := by
    intro ex hex
    fin_cases hex <;> rfl
  refine ⟨h, ?_⟩
  rw [(claim_C4_scan_selection _ h).1]
  with_unfolding_all rfl

/-! ### Claim C3: the reply-parsing fallback chain -/
lemma extract_score_loop_no_match (cs : List Char) :
    ∀ ps, (∀ p ∈ ps, searchPat p cs = none) → extract_score_loop ps cs = 0 := by
  intro ps
  induction ps with
  | nil => intro _; rfl
  | cons p rest ih =>
      intro h
      have hp := h p (by simp)
      simp [extract_score_loop, hp, ih (fun p' hp' => h p' (by simp [hp']))]

/-- Counterexample to claim C3: on a reply whose payload fails strict
parsing but carries a score-label phrase, the regrading client's fallback
chain extracts score 5, while the first-time teacher-grading client returns
the raw payload with score 0 — so the claimed fallback chain is not applied
by both pipelines' grading clients. -/
theorem claim_C3_counterexample :
    teacher_parse "最终得分: 5 \x7binvalid" =
      .verdict ⟨Json.str "最终得分: 5 \x7binvalid", 0⟩
    ∧ regrade_parse "最终得分: 5 \x7binvalid" =
        .verdict ⟨Json.str "最终得分: 5 \x7binvalid", 5⟩
    ∧ teacher_parse "最终得分: 5 \x7binvalid" ≠
        regrade_parse "最终得分: 5 \x7binvalid" := by
  have h1 : teacher_parse "最终得分: 5 \x7binvalid" =
      .verdict ⟨Json.str "最终得分: 5 \x7binvalid", 0⟩ := by
    with_unfolding_all rfl
  have h2 : regrade_parse "最终得分: 5 \x7binvalid" =
      .verdict ⟨Json.str "最终得分: 5 \x7binvalid", 5⟩ := by
    with_unfolding_all rfl
  refine ⟨h1, h2, ?_⟩
  rw [h1, h2]
  simp only [ne_eq, ParseOut.verdict.injEq, Verdict.mk.injEq]
  intro hcontra
  exact absurd hcontra.2 (by norm_num)

/-- Claim C3 as amended: the repair-and-retry and pattern-extraction
fallback chain is applied by the regrading client only.  When strict parsing
of the extracted payload fails: the first-time teacher-grading client
immediately returns the payload as the rationale with score 0.0; the
regrading client retries strict parsing on the backslash-repaired payload,
accepts a decoded object carrying both required fields, and falls back to
pattern extraction — rationale the marker-stripped payload, score defaulting
to 0.0 when no pattern matches — when the repaired parse also fails or the
decoded value fails the membership test for a required field.  A decoded
non-dict whose membership test or item access raises `TypeError` (a number,
boolean or null, or a string/list containing both key spellings) does not
reach pattern extraction: the exception consumes the attempt, which is
retried like a network failure, sleeping only while attempts remain. -/
theorem claim_C3_amended_fallback_chain (c : String)
    (hfail : Json.parse (extract_block c) = none) :
    teacher_parse c = .verdict ⟨Json.str (extract_block c), 0⟩
    ∧ (∀ (kvs : List (String × Json)) (a sc : Json),
        Json.parse (fix_backslashes (extract_block c)) = some (.obj kvs) →
        jsonLookup kvs "teacher_analysis" = some a →
        jsonLookup kvs "teacher_score" = some sc →
        regrade_parse c = .verdict ⟨a, jsonToScore sc⟩)
    ∧ (∀ kvs : List (String × Json),
        Json.parse (fix_backslashes (extract_block c)) = some (.obj kvs) →
        (jsonLookup kvs "teacher_analysis" = none ∨
          jsonLookup kvs "teacher_score" = none) →
        regrade_parse c = .verdict (extract_from_raw_text (extract_block c)))
    ∧ (Json.parse (fix_backslashes (extract_block c)) = none →
        regrade_parse c = .verdict (extract_from_raw_text (extract_block c)))
    ∧ (∀ j, Json.parse (fix_backslashes (extract_block c)) = some j →
        check_fields j = .raises →
        regrade_parse c = .raised)
    ∧ (∀ (oracle : Nat → ApiResult) (mr remaining attempt : Nat) (j : Json),
        oracle attempt = .ok c →
        Json.parse (fix_backslashes (extract_block c)) = some j →
        check_fields j = .raises →
        api_call_loop regrade_parse oracle mr (remaining + 1) attempt =
          ⟨(api_call_loop regrade_parse oracle mr remaining (attempt + 1)).verdict,
            (api_call_loop regrade_parse oracle mr remaining (attempt + 1)).attempts
              + 1,
            if attempt < mr - 1 then
              2 ^ attempt ::
                (api_call_loop regrade_parse oracle mr remaining
                  (attempt + 1)).waits
            else (api_call_loop regrade_parse oracle mr remaining
              (attempt + 1)).waits⟩)
    ∧ (extract_from_raw_text (extract_block c)).analysis =
        Json.str (strip_markers (extract_block c))
    ∧ ((∀ p ∈ score_patterns, searchPat p (extract_block c).toList = none) →
        (extract_from_raw_text (extract_block c)).score = 0) := by
  refine ⟨?_, ?_, ?_, ?_, ?_, ?_, rfl, ?_⟩
  · simp [teacher_parse, hfail]
  · intro kvs a sc hj ha hsc
    simp [regrade_parse, hfail, hj, regrade_validate, check_fields, ha, hsc]
  · intro kvs hj hmiss
    have hcf : check_fields (Json.obj kvs) = .missing := by
      rcases hmiss with hm | hm
      · simp [check_fields, hm]
      · cases ha : jsonLookup kvs "teacher_analysis" <;>
          simp [check_fields, ha, hm]
    simp [regrade_parse, hfail, hj, regrade_validate, hcf]
  · intro hj
    simp [regrade_parse, hfail, hj]
  · intro j hj hrc
    simp [regrade_parse, hfail, hj, regrade_validate, hrc]
  · intro oracle mr remaining attempt j hor hj hrc
    have hr : regrade_parse c = .raised := by
      simp [regrade_parse, hfail, hj, regrade_validate, hrc]
    simp [api_call_loop, hor, hr]
  · intro hnone
    exact extract_score_loop_no_match (extract_block c).toList score_patterns hnone

/-- Witness for the amended claim C3, at two concrete replies.  A payload
whose only defect is an unescaped backslash fails strict parsing, parses
after the repair pass, and yields the object's own rationale and score
through the regrading client, while the first-time client degrades to the
raw payload with score 0.  A payload that repairs to a bare JSON string
containing both key spellings makes the membership test raise: the
regrading client's attempt is consumed rather than degraded to pattern
extraction. -/
theorem claim_C3_amended_fallback_chain_witness :
    Json.parse
        (extract_block "\x7b\"teacher_analysis\": \"a\\q\", \"teacher_score\": 4\x7d") =
      none
    ∧ regrade_parse "\x7b\"teacher_analysis\": \"a\\q\", \"teacher_score\": 4\x7d" =
        .verdict ⟨Json.str "a\\q", 4⟩
    ∧ teacher_parse "\x7b\"teacher_analysis\": \"a\\q\", \"teacher_score\": 4\x7d" =
        .verdict
          ⟨Json.str "\x7b\"teacher_analysis\": \"a\\q\", \"teacher_score\": 4\x7d",
            0⟩
    ∧ Json.parse
        (extract_block "\"x\\q teacher_analysis teacher_score\"") = none
    ∧ regrade_parse "\"x\\q teacher_analysis teacher_score\"" = .raised := by
  have hfailW : Json.parse
      (extract_block "\x7b\"teacher_analysis\": \"a\\q\", \"teacher_score\": 4\x7d") =
      none := by
    with_unfolding_all rfl
  have hW := claim_C3_amended_fallback_chain
    "\x7b\"teacher_analysis\": \"a\\q\", \"teacher_score\": 4\x7d" hfailW
  have hblockW :
      extract_block "\x7b\"teacher_analysis\": \"a\\q\", \"teacher_score\": 4\x7d" =
        "\x7b\"teacher_analysis\": \"a\\q\", \"teacher_score\": 4\x7d" := by
    with_unfolding_all rfl
  have hjW : Json.parse (fix_backslashes
      (extract_block "\x7b\"teacher_analysis\": \"a\\q\", \"teacher_score\": 4\x7d")) =
      some (Json.obj [("teacher_analysis", Json.str "a\\q"),
        ("teacher_score", Json.num 4)]) := by
    with_unfolding_all rfl
  have h2 := hW.2.1 _ (Json.str "a\\q") (Json.num 4) hjW
    (by with_unfolding_all rfl) (by with_unfolding_all rfl)
  have hfailR : Json.parse
      (extract_block "\"x\\q teacher_analysis teacher_score\"") = none := by
    with_unfolding_all rfl
  have hR := claim_C3_amended_fallback_chain
    "\"x\\q teacher_analysis teacher_score\"" hfailR
  have hjR : Json.parse (fix_backslashes
      (extract_block "\"x\\q teacher_analysis teacher_score\"")) =
      some (Json.str "x\\q teacher_analysis teacher_score") := by
    with_unfolding_all rfl
  have hrcR : check_fields (Json.str "x\\q teacher_analysis teacher_score") =
      .raises := by
    with_unfolding_all rfl
  refine ⟨hfailW, ?_, by rw [hW.1, hblockW], hfailR,
    hR.2.2.2.2.1 _ hjR hrcR⟩
  rw [h2]
  with_unfolding_all rfl

end GaokaoSpec
